/-
Verification of the natural-language specification of the qpageview
repository (files qpageview/cupsprinter.py and qpageview/pdf.py) against
a shallow embedding of the code in Lean 4.

Conventions of the embedding:
* Python ints are modelled as `Int` (page counts and indices as `Nat`
  where the source guarantees non-negativity).
* Python floats appearing in resolution arithmetic are modelled as `ℚ`
  (the source only multiplies, divides and compares them).
* Fallible operations return `Option`/`Except`; external effects
  (spawning a process, talking to the CUPS server, the Qt paint device)
  are passed in as explicit function arguments, so the embedded
  functions stay pure while following the source control flow line by
  line.
* Stateful code (attribute assignment, lock acquisition) is embedded as
  explicit result records resp. event traces.
-/
import Mathlib

namespace QPageView

/-! ## cupsprinter.py: `Handle` and friends -/

/-- Python `str.isspace` restricted to the ASCII whitespace characters
(space, tab, newline, carriage return, vertical tab, form feed):
true iff the string is non-empty and all characters are whitespace. -/
def pyIsWsChar (c : Char) : Bool :=
  c = ' ' ∨ c = '\t' ∨ c = '\n' ∨ c = '\r' ∨ c = '\x0b' ∨ c = '\x0c'

/-- `f.isspace()` for a filename `f`. -/
def pyIsspace (s : String) : Bool :=
  s ≠ "" && s.toList.all pyIsWsChar

/-- The per-filename test in `Handle.printFiles`:
`f and not f.isspace() and f != "-"`. -/
def validFilename (f : String) : Bool :=
  f ≠ "" && !(pyIsspace f) && f ≠ "-"

/-- `os.path.basename` on POSIX: the part after the last `/`. -/
def pyBasename (f : String) : String :=
  (f.splitOn "/").getLastD ""

/-- `Handle.title(filenames)`: basenames of the first five filenames,
a `(+n more)` marker when there are more, joined with `", "`. -/
def Handle.title (filenames : List String) : String :=
  let maxlen := 5
  let titles := (filenames.take maxlen).map pyBasename
  let more : Int := (filenames.length : Int) - maxlen
  let titles := if more > 0 then titles ++ [s!"(+{more} more)"] else titles
  String.intercalate ", " titles

/-- `dict.update` on an association list: entries of `extra` replace or
append to `base`, keeping the insertion-order semantics of a Python
dict (later updates overwrite in place). -/
def dictUpdate (base extra : List (String × String)) : List (String × String) :=
  extra.foldl (fun acc kv =>
    if acc.any (fun p => p.1 = kv.1)
    then acc.map (fun p => if p.1 = kv.1 then (p.1, kv.2) else p)
    else acc ++ [kv]) base

/-- Result of one call to `Handle.printFiles`: the boolean return value,
the `status` and `error` attributes it assigned, and whether the
subclass hook `_doPrintFiles` was invoked. -/
structure PrintResult where
  ret : Bool
  status : Int
  error : String
  doPrintCalled : Bool
  deriving Repr, DecidableEq

/-- `Handle.printFiles(filenames, title, options)`.

`doPrintFiles filenames title opts` stands for
`self._doPrintFiles(printerName, filenames, title, o)`; `printerOpts`
is the dict returned by `self.options()`.  The attributes `status` and
`error` are assigned in every branch; the return value is
`self.status == 0`. -/
def Handle.printFiles (filenames : List String) (title : Option String)
    (options : Option (List (String × String)))
    (printerOpts : List (String × String))
    (doPrintFiles : List String → String → List (String × String) → Int × String) :
    PrintResult :=
  if filenames ≠ [] then
    if filenames.all validFilename then
      let t := match title with
        | some s => if s = "" then Handle.title filenames else s
        | none => Handle.title filenames
      let o := match options with
        | some opts => if opts = [] then printerOpts else dictUpdate printerOpts opts
        | none => printerOpts
      let se := doPrintFiles filenames t o
      ⟨se.1 == 0, se.1, se.2, true⟩
    else
      ⟨(2 : Int) == 0, 2, "Not a valid filename", false⟩
  else
    ⟨(2 : Int) == 0, 2, "No filenames specified", false⟩

/-- `Handle.printFile(filename, title, options)`: delegates to
`printFiles([filename], title, options)`. -/
def Handle.printFile (filename : String) (title : Option String)
    (options : Option (List (String × String)))
    (printerOpts : List (String × String))
    (doPrintFiles : List String → String → List (String × String) → Int × String) :
    PrintResult :=
  Handle.printFiles [filename] title options printerOpts doPrintFiles

/-- The `status` and `error` attributes of a `Handle`; `none` models an
attribute that has not been assigned yet. -/
structure HandleAttrs where
  status : Option Int
  error : Option String
  deriving Repr, DecidableEq

/-- `Handle.printFiles` as a state transformer on the `status`/`error`
attributes: the call returns the boolean and leaves the attributes
assigned to this call's outcome, whatever they held before. -/
def Handle.printFilesS (st : HandleAttrs) (filenames : List String)
    (title : Option String) (options : Option (List (String × String)))
    (printerOpts : List (String × String))
    (doPrintFiles : List String → String → List (String × String) → Int × String) :
    Bool × HandleAttrs :=
  let _ := st
  let r := Handle.printFiles filenames title options printerOpts doPrintFiles
  (r.ret, ⟨some r.status, some r.error⟩)

/-- An `OSError`: errno and strerror. -/
structure OSErr where
  errno : Int
  strerror : String
  deriving Repr, DecidableEq

/-- `f.startswith('-')` for a filename `f`: its first character is
`-`. -/
def pyStartsWithDash (f : String) : Bool :=
  match f.toList with
  | [] => false
  | c :: _ => c = '-'

/-- The command line built by `CmdHandle._doPrintFiles` before spawning
the process: command, `-h server[:port]`, `-U user`, `-d printer`,
`-t title`, `-o key=value` pairs, a `--` separator when some filename
starts with `-`, then the filenames. -/
def CmdHandle.buildCmd (command server : String) (port : Int) (user : String)
    (printerName : String) (filenames : List String) (title : String)
    (options : List (String × String)) : List String :=
  let cmd := [command]
  let cmd := cmd ++
    (if server ≠ "" then
      if port ≠ 0 then ["-h", server ++ ":" ++ toString port]
      else ["-h", server]
    else [])
  let cmd := cmd ++ (if user ≠ "" then ["-U", user] else [])
  let cmd := cmd ++ ["-d", printerName]
  let cmd := cmd ++ ["-t", title]
  let cmd := cmd ++ (options.foldl (fun acc ov => acc ++ ["-o", ov.1 ++ "=" ++ ov.2]) [])
  let cmd := cmd ++ (if filenames.any pyStartsWithDash then ["--"] else [])
  cmd ++ filenames

/-- `CmdHandle._doPrintFiles`: spawn the command; an `OSError` from
`subprocess.Popen` is caught and `(e.errno, e.strerror)` returned;
otherwise the result is the process's wait status and decoded stderr.
`popen` stands for the spawn-and-communicate effect. -/
def CmdHandle.doPrintFiles (command server : String) (port : Int) (user : String)
    (popen : List String → Except OSErr (Int × String))
    (printerName : String) (filenames : List String) (title : String)
    (options : List (String × String)) : Int × String :=
  let cmd := CmdHandle.buildCmd command server port user printerName filenames title options
  match popen cmd with
  | .error e => (e.errno, e.strerror)
  | .ok (retcode, message) => (retcode, message)

/-- `IppHandle._doPrintFiles`: submit the files one at a time over the
CUPS connection; `submit f = some err` models `cups.IPPError` with
`err = err.args` raised by `connection.printFile`, `none` a successful
submission.  Returns the `(status, error)` pair together with the list
of files whose submission was attempted, in order. -/
def IppHandle.doPrintFiles (submit : String → Option (Int × String)) :
    List String → (Int × String) × List String
  | [] => ((0, ""), [])
  | f :: rest =>
    match submit f with
    | some err => (err, [f])
    | none =>
      let ra := IppHandle.doPrintFiles submit rest
      (ra.1, f :: ra.2)

/-! ## cupsprinter.py: `clearPageSetSetting` -/

/-- The value `printer.printEngine().property(0xfe00)` can take, as far
as `clearPageSetSetting` distinguishes it: absent/falsy, some non-list
value, or a list of strings. -/
inductive PropVal where
  | absent : PropVal
  | nonList : PropVal
  | listVal : List String → PropVal
  deriving Repr, DecidableEq

/-- Python `list.index(x)`: index of the first occurrence, `none` models
the `ValueError`. -/
def pyIndex (x : String) : List String → Option Nat
  | [] => none
  | y :: ys => if y = x then some 0 else (pyIndex x ys).map (· + 1)

/-- `clearPageSetSetting(printer)`: returns `some opts'` when the
function writes the shortened option list back into the print engine,
`none` when it returns without writing.  Follows the source: the guard
`opts and isinstance(opts, list) and len(opts) % 2 == 0` (an empty list
is falsy), `opts.index('page-set')` with `ValueError` caught, and the
write happening only when that first index is even. -/
def clearPageSetSetting : PropVal → Option (List String)
  | .listVal l =>
    if l ≠ [] ∧ l.length % 2 = 0 then
      match pyIndex "page-set" l with
      | none => none
      | some i =>
        if i % 2 = 0 then some (l.take i ++ l.drop (i + 2)) else none
    else none
  | _ => none

/-! ## pdf.py: `Link`, `PdfPage`, `PdfRenderer` -/

/-- A `Link` as far as `targetPage` is concerned: the page datum the
link model stores under `QPdfLinkModel.Role.Page` (a 0-indexed page
number, or `-1` for an external or non-page link). -/
structure Link where
  pageDatum : Int
  deriving Repr, DecidableEq

/-- `Link.targetPage`: `(page + 1) if page != -1 else -1`. -/
def Link.targetPage (lk : Link) : Int :=
  if lk.pageDatum ≠ -1 then lk.pageDatum + 1 else -1

/-- A `PdfPage`: the identity of its `QPdfDocument` (Python object
identity, modelled as a number) and the page number to render. -/
structure PdfPage where
  document : Nat
  pageNumber : Int
  deriving Repr, DecidableEq

/-- `PdfPage.mutex`: returns `self.document`. -/
def PdfPage.mutex (p : PdfPage) : Nat :=
  p.document

/-- `PdfPage.group`: returns `self.document`. -/
def PdfPage.group (p : PdfPage) : Nat :=
  p.document

/-- A Python `slice(start, stop, step)` object with its optional
fields. -/
structure PySlice where
  start : Option Int
  stop : Option Int
  step : Option Int
  deriving Repr, DecidableEq

/-- The index adjustment `slice.indices` performs on an explicit start
or stop value for a sequence of length `n` (CPython
`PySlice_AdjustIndices`): negative values count from the end, then are
clamped to `[0, n]` for a positive step and `[-1, n-1]` for a negative
one. -/
def pyAdjustIndex (n step v : Int) : Int :=
  if v < 0 then
    let w := v + n
    if w < 0 then (if 0 < step then 0 else -1) else w
  else if n ≤ v then (if 0 < step then n else n - 1) else v

/-- The start index `slice.indices` yields: default `0` (positive step)
or `n - 1` (negative step). -/
def pyStartIndex (n step : Int) : Option Int → Int
  | none => if 0 < step then 0 else n - 1
  | some v => pyAdjustIndex n step v

/-- The stop index `slice.indices` yields: default `n` (positive step)
or `-1` (negative step). -/
def pyStopIndex (n step : Int) : Option Int → Int
  | none => if 0 < step then n else -1
  | some v => pyAdjustIndex n step v

/-- The number of elements of the sliced sequence (CPython
`PySlice_AdjustIndices` return value). -/
def pySliceLength (start stop step : Int) : Int :=
  if 0 < step then
    if start < stop then (stop - start - 1) / step + 1 else 0
  else
    if stop < start then (start - stop - 1) / (-step) + 1 else 0

/-- `range(n)[s]` for a slice `s`: the selected indices in order.
`none` models the `ValueError` Python raises for a zero step. -/
def PySlice.apply (s : PySlice) (n : Nat) : Option (List Int) :=
  let step := s.step.getD 1
  if step = 0 then none
  else
    let start := pyStartIndex n step s.start
    let stop := pyStopIndex n step s.stop
    some ((List.range (pySliceLength start stop step).toNat).map
      (fun k : Nat => start + step * (k : Int)))

/-- `PdfPage.loadDocument(document, renderer, pageSlice)`: iterate over
`range(document.pageCount())`, restricted by the slice when given, and
yield `cls(document, num, renderer)` for each selected number. -/
def PdfPage.loadDocument (doc : Nat) (pageCount : Nat) :
    Option PySlice → Option (List PdfPage)
  | none => some ((List.range pageCount).map (fun k : Nat => ⟨doc, (k : Int)⟩))
  | some s => (s.apply pageCount).map (List.map (fun k : Int => ⟨doc, k⟩))

/-! ### The locking discipline around native renderer calls

The bodies of `PdfRenderer._render_image`, `PdfPage.text` and
`PdfPage.links` are embedded as traces of the events that matter to the
concurrency claim: acquiring/releasing the per-document lock
(`with locking.lock(doc):`) and the calls into the native QtPdf
renderer that happen inside resp. outside the `with` block, in source
order. -/

/-- The native QtPdf calls the three functions make. -/
inductive RenderOp where
  | render : RenderOp
  | getSelection : RenderOp
  | linkModel : RenderOp
  deriving Repr, DecidableEq

/-- An event: lock/unlock of a document's lock, or a call into the
native renderer on a document. -/
inductive Ev where
  | lock : Nat → Ev
  | unlock : Nat → Ev
  | native : Nat → RenderOp → Ev
  deriving Repr, DecidableEq

/-- `PdfRenderer._render_image(doc, num, ...)`: enters
`locking.lock(doc)`, calls `doc.render(...)` inside the block, leaves
the block. -/
def renderImageTrace (doc : Nat) : List Ev :=
  [.lock doc, .native doc .render, .unlock doc]

/-- `PdfPage.text(rect)`: enters `locking.lock(self.document)`, calls
`self.document.getSelection(...)` inside the block, leaves it. -/
def textTrace (p : PdfPage) : List Ev :=
  [.lock p.document, .native p.document .getSelection, .unlock p.document]

/-- `PdfPage.links()`: on a cache hit no native call is made; otherwise
the `QPdfLinkModel` for the page is constructed inside
`locking.lock(document)`. -/
def linksTrace (p : PdfPage) (cached : Bool) : List Ev :=
  if cached then []
  else [.lock p.document, .native p.document .linkModel, .unlock p.document]

/-- Checks that every native renderer call in the trace happens while
the lock of the document it targets is held (`held` is the multiset of
currently held document locks). -/
def nativeLocked (held : List Nat) : List Ev → Bool
  | [] => true
  | .lock d :: r => nativeLocked (d :: held) r
  | .unlock d :: r => nativeLocked (held.erase d) r
  | .native d _ :: r => held.contains d && nativeLocked held r

/-- Checks that every native renderer call in the trace targets the
given document. -/
def nativeTargets (doc : Nat) (tr : List Ev) : Bool :=
  tr.all fun e => match e with
    | .native d _ => d = doc
    | _ => true

/-! ### `PdfRenderer`: tiles, oversampling, draw geometry -/

/-- `render.Tile(x, y, w, h)`: a rectangular sub-region of the rendered
page image, in the same integer pixel coordinates as the render key. -/
structure Tile where
  x : Int
  y : Int
  w : Int
  h : Int
  deriving Repr, DecidableEq

/-- `PdfRenderer.tiles(width, height)`: for the QtPdf backend this
always yields a single tile covering the entire page. -/
def PdfRenderer.tiles (width height : Int) : List Tile :=
  [⟨0, 0, width, height⟩]

/-- The part of a render key `draw` looks at: the pixel size of the
page at the current zoom/resolution and the rotation (quarter turns). -/
structure RenderKey where
  width : Int
  height : Int
  rotation : Nat
  deriving Repr, DecidableEq

/-- `PdfRenderer.oversampleThreshold = 96` (DPI of a standard PC
screen). -/
def PdfRenderer.oversampleThreshold : ℚ := 96

/-- Python `int()` on a float/rational: truncation toward zero. -/
def pyInt (q : ℚ) : Int :=
  if 0 ≤ q then ⌊q⌋ else -⌊-q⌋

/-- The geometry `PdfRenderer.draw` computes: the oversampling
multipliers, the size passed to `_render_image`, the image size after
the optional crop, and the size of the image finally drawn onto the
target rectangle. -/
structure DrawResult where
  xMult : Nat
  yMult : Nat
  renderW : Int
  renderH : Int
  imageW : Int
  imageH : Int
  finalW : Int
  finalH : Int
  deriving Repr, DecidableEq

/-- `PdfRenderer.draw(page, painter, key, tile, paperColor)`, reduced
to the sizes it computes.  `pageWidth`/`pageHeight` is
`page.pageSize()` in points; `m11`/`m22` are the horizontal and
vertical scale of `painter.deviceTransform()` (the transform is
modelled by its scale components; its translation does not affect any
of the sizes computed here).  Follows the source: transpose page size
and target for odd rotations; `actualSize` iff both scales are 1;
multipliers from the effective resolutions against
`oversampleThreshold`; render at `matrix.scale(xM, yM)`-mapped source
size; crop when the tile is not the whole key rect; rescale to the
target when at actual size and the image size differs from it. -/
def PdfRenderer.draw (pageWidth pageHeight : ℚ) (key : RenderKey) (tile : Tile)
    (m11 m22 : ℚ) : DrawResult :=
  let psW := if key.rotation % 2 = 1 then pageHeight else pageWidth
  let psH := if key.rotation % 2 = 1 then pageWidth else pageHeight
  let targetW := if key.rotation % 2 = 1 then tile.h else tile.w
  let targetH := if key.rotation % 2 = 1 then tile.w else tile.h
  let vscale := m11
  let hscale := m22
  let actualSize := vscale = hscale ∧ hscale = 1
  let xresEffective := 72 * (key.width : ℚ) / psW
  let yresEffective := 72 * (key.height : ℚ) / psH
  let xMult : Nat := if actualSize then (if xresEffective < PdfRenderer.oversampleThreshold then 2 else 1) else 1
  let yMult : Nat := if actualSize then (if yresEffective < PdfRenderer.oversampleThreshold then 2 else 1) else 1
  let renderW := pyInt (m11 * xMult * key.width)
  let renderH := pyInt (m22 * yMult * key.height)
  let crop := tile ≠ ⟨0, 0, key.width, key.height⟩
  let imageW := if crop then pyInt (m11 * tile.w) else renderW
  let imageH := if crop then pyInt (m22 * tile.h) else renderH
  let rescale := actualSize ∧ ¬(imageW = targetW ∧ imageH = targetH)
  let finalW := if rescale then targetW else imageW
  let finalH := if rescale then targetH else imageH
  ⟨xMult, yMult, renderW, renderH, imageW, imageH, finalW, finalH⟩

/-! ## Theorems -/

/-- In every branch of `Handle.printFiles` the boolean return value is
`self.status == 0` for the `status` assigned in that branch. -/
theorem Handle.printFiles_ret (fs : List String) (t : Option String)
    (o : Option (List (String × String))) (popts : List (String × String))
    (dp : List String → String → List (String × String) → Int × String) :
    (Handle.printFiles fs t o popts dp).ret
      = ((Handle.printFiles fs t o popts dp).status == 0) := by
  unfold Handle.printFiles
  split_ifs <;> rfl

/-- C10: `Link.targetPage` converts QtPdf's 0-indexed page numbers to
1-indexed ones: on the values the page datum can take (a 0-based page
index or `-1`), it returns `p + 1` whenever the datum `p` is not `-1`,
and returns `-1` exactly when the datum is `-1`. -/
theorem claim_C10 (lk : Link) (h : lk.pageDatum = -1 ∨ 0 ≤ lk.pageDatum) :
    (lk.pageDatum ≠ -1 → lk.targetPage = lk.pageDatum + 1) ∧
    (lk.targetPage = -1 ↔ lk.pageDatum = -1) := by
  unfold Link.targetPage
  rcases h with h | h
  · simp [h]
  · constructor
    · intro hne; simp [hne]
    · constructor
      · intro he
        by_cases hne : lk.pageDatum = -1
        · exact hne
        · rw [if_pos hne] at he; omega
      · intro he; simp [he]

/-- Witness for C10 at the concrete page datum 5. -/
theorem claim_C10_witness : (Link.mk 5).targetPage = -1 ↔ (Link.mk 5).pageDatum = -1 :=
  (claim_C10 ⟨5⟩ (Or.inr (by norm_num))).2

/-- C2: `Handle.printFiles` (and `Handle.printFile`) returns `True` iff
the `status` it stores is 0; the result is independent of whatever the
`status`/`error` attributes held before the call, and both attributes
are assigned to this call's outcome on every call. -/
theorem claim_C2 (st st' : HandleAttrs) (fs : List String) (t : Option String)
    (o : Option (List (String × String))) (popts : List (String × String))
    (dp : List String → String → List (String × String) → Int × String)
    (f : String) :
    Handle.printFilesS st fs t o popts dp = Handle.printFilesS st' fs t o popts dp ∧
    (Handle.printFilesS st fs t o popts dp).2.status
      = some (Handle.printFiles fs t o popts dp).status ∧
    (Handle.printFilesS st fs t o popts dp).2.error
      = some (Handle.printFiles fs t o popts dp).error ∧
    ((Handle.printFilesS st fs t o popts dp).1 = true
      ↔ (Handle.printFiles fs t o popts dp).status = 0) ∧
    Handle.printFile f t o popts dp = Handle.printFiles [f] t o popts dp := by
  refine ⟨rfl, rfl, rfl, ?_, rfl⟩
  show (Handle.printFiles fs t o popts dp).ret = true
    ↔ (Handle.printFiles fs t o popts dp).status = 0
  rw [Handle.printFiles_ret]
  exact beq_iff_eq

/-- Witness for C2 on a concrete successful print call. -/
theorem claim_C2_witness :
    (Handle.printFilesS ⟨none, none⟩ ["a.pdf"] none none [] (fun _ _ _ => (0, ""))).1
      = true :=
  ((claim_C2 ⟨none, none⟩ ⟨some 9, some "x"⟩ ["a.pdf"] none none []
    (fun _ _ _ => (0, "")) "a.pdf").2.2.2.1).mpr (by decide)

/-- C8: `Handle.printFiles` validates before printing: an empty
filename list yields `False` with status 2 and "No filenames
specified"; a list with an empty, all-whitespace or `"-"` filename
yields `False` with status 2 and "Not a valid filename", without
calling `_doPrintFiles`; and `CmdHandle._doPrintFiles` puts a `--`
separator before the filenames whenever one of them starts with
`-`. -/
theorem claim_C8 (t : Option String) (o : Option (List (String × String)))
    (popts : List (String × String))
    (dp : List String → String → List (String × String) → Int × String) :
    Handle.printFiles [] t o popts dp = ⟨false, 2, "No filenames specified", false⟩ ∧
    (∀ f, validFilename f = false ↔ (f = "" ∨ pyIsspace f = true ∨ f = "-")) ∧
    (∀ fs f, f ∈ fs → (f = "" ∨ pyIsspace f = true ∨ f = "-") →
      Handle.printFiles fs t o popts dp = ⟨false, 2, "Not a valid filename", false⟩) ∧
    (∀ command server port user pn title opts fs,
      fs.any pyStartsWithDash = true →
      CmdHandle.buildCmd command server port user pn fs title opts
        = CmdHandle.buildCmd command server port user pn [] title opts ++ ["--"] ++ fs) := by
  refine ⟨rfl, ?_, ?_, ?_⟩
  · intro f
    by_cases h1 : f = "" <;> by_cases h2 : pyIsspace f = true <;>
      by_cases h3 : f = "-" <;> simp [validFilename, h1, h2, h3]
  · intro fs f hmem hbad
    have hne : fs ≠ [] := by rintro rfl; cases hmem
    have hall : fs.all validFilename = false := by
      rw [List.all_eq_false]
      refine ⟨f, hmem, ?_⟩
      rcases hbad with h | h | h <;> simp [validFilename, h]
    unfold Handle.printFiles
    rw [if_pos hne, if_neg (by simp [hall])]
    rfl
  · intro command server port user pn title opts fs h
    simp [CmdHandle.buildCmd, h]

/-- Witness for C8: the filename "-" is rejected, and a filename
starting with "-" forces the "--" separator. -/
theorem claim_C8_witness :
    Handle.printFiles ["-"] none none [] (fun _ _ _ => (0, ""))
      = ⟨false, 2, "Not a valid filename", false⟩ ∧
    CmdHandle.buildCmd "lp" "" 0 "" "pr" ["-x.pdf"] "T" []
      = CmdHandle.buildCmd "lp" "" 0 "" "pr" [] "T" [] ++ ["--"] ++ ["-x.pdf"] :=
  ⟨(claim_C8 none none [] (fun _ _ _ => (0, ""))).2.2.1 ["-"] "-"
      (List.mem_singleton.mpr rfl) (Or.inr (Or.inr rfl)),
   (claim_C8 none none [] (fun _ _ _ => (0, ""))).2.2.2
      "lp" "" 0 "" "pr" "T" [] ["-x.pdf"] (by decide)⟩

/-- When every submission succeeds, `IppHandle._doPrintFiles` attempts
every file in order and returns `(0, "")`. -/
theorem ipp_all_none (submit : String → Option (Int × String)) :
    ∀ fs, (∀ f ∈ fs, submit f = none) →
      IppHandle.doPrintFiles submit fs = ((0, ""), fs) := by
  intro fs
  induction fs with
  | nil => intro _; rfl
  | cons f rest ih =>
    intro h
    simp only [IppHandle.doPrintFiles]
    rw [h f (List.mem_cons_self f rest)]
    simp [ih (fun g hg => h g (List.mem_cons_of_mem f hg))]

/-- When the files before `f` succeed and `f`'s submission raises,
`IppHandle._doPrintFiles` returns the error's argument pair and has
attempted exactly the prefix up to and including `f`. -/
theorem ipp_first_err (submit : String → Option (Int × String)) :
    ∀ pre f post e, (∀ g ∈ pre, submit g = none) → submit f = some e →
      IppHandle.doPrintFiles submit (pre ++ f :: post) = (e, pre ++ [f]) := by
  intro pre
  induction pre with
  | nil =>
    intro f post e _ hf
    rw [List.nil_append]
    simp only [IppHandle.doPrintFiles]
    rw [hf]
    rfl
  | cons g pre' ih =>
    intro f post e hpre hf
    rw [List.cons_append]
    simp only [IppHandle.doPrintFiles]
    rw [hpre g (List.mem_cons_self g pre')]
    simp [ih f post e (fun g' hg' => hpre g' (List.mem_cons_of_mem g hg')) hf]

/-- When no submission error carries the pair `(0, "")`, the result of
`IppHandle._doPrintFiles` is `(0, "")` iff every file succeeded. -/
theorem ipp_zero_iff (submit : String → Option (Int × String))
    (hnz : ∀ f e, submit f = some e → e ≠ (0, "")) :
    ∀ fs, ((IppHandle.doPrintFiles submit fs).1 = (0, "") ↔ ∀ f ∈ fs, submit f = none) := by
  intro fs
  induction fs with
  | nil => simp [IppHandle.doPrintFiles]
  | cons f rest ih =>
    simp only [IppHandle.doPrintFiles]
    cases hsf : submit f with
    | some e => simp [hnz f e hsf, hsf]
    | none => simp [hsf, ih]

/-- C5: `IppHandle._doPrintFiles` submits the files one by one in list
order, stops at the first file whose submission raises an IPP error
and returns that error's `(status, message)` pair without attempting
the remaining files, and (for errors that never carry the success pair
`(0, "")`) returns `(0, "")` exactly when every file was submitted
without error. -/
theorem claim_C5 (submit : String → Option (Int × String)) (fs : List String) :
    ((∀ f ∈ fs, submit f = none) → IppHandle.doPrintFiles submit fs = ((0, ""), fs)) ∧
    (∀ pre f post e, fs = pre ++ f :: post → (∀ g ∈ pre, submit g = none) →
      submit f = some e → IppHandle.doPrintFiles submit fs = (e, pre ++ [f])) ∧
    ((∀ f e, submit f = some e → e ≠ (0, "")) →
      ((IppHandle.doPrintFiles submit fs).1 = (0, "") ↔ ∀ f ∈ fs, submit f = none)) :=
  ⟨ipp_all_none submit fs,
   fun pre f post e hfs hpre hf => hfs ▸ ipp_first_err submit pre f post e hpre hf,
   fun hnz => ipp_zero_iff submit hnz fs⟩

/-- Witness for C5: submitting `["a", "b", "c"]` where `"b"` raises
`(3, "boom")` returns that pair, having attempted only `["a", "b"]`. -/
theorem claim_C5_witness :
    IppHandle.doPrintFiles (fun f => if f = "b" then some (3, "boom") else none)
      ["a", "b", "c"] = ((3, "boom"), ["a", "b"]) :=
  (claim_C5 (fun f => if f = "b" then some (3, "boom") else none)
      ["a", "b", "c"]).2.1 ["a"] "b" ["c"] (3, "boom") rfl (by decide) (by decide)

/-- C7: a failure of `subprocess.Popen` is caught by
`CmdHandle._doPrintFiles`, which returns `(e.errno, e.strerror)`
instead of propagating; through `Handle.printFiles` such a failure
with a nonzero errno surfaces as a `False` return with `status` and
`error` taken from the OS error. -/
theorem claim_C7 (command server : String) (port : Int) (user : String)
    (popen : List String → Except OSErr (Int × String)) (pn : String)
    (fs : List String) (title : String) (opts : List (String × String))
    (e : OSErr) (t : Option String) (o : Option (List (String × String)))
    (popts : List (String × String)) :
    (popen (CmdHandle.buildCmd command server port user pn fs title opts) = .error e →
      CmdHandle.doPrintFiles command server port user popen pn fs title opts
        = (e.errno, e.strerror)) ∧
    ((∀ c, popen c = .error e) → fs ≠ [] → fs.all validFilename = true → e.errno ≠ 0 →
      Handle.printFiles fs t o popts
        (fun fns ti op => CmdHandle.doPrintFiles command server port user popen pn fns ti op)
        = ⟨false, e.errno, e.strerror, true⟩) := by
  constructor
  · intro h
    simp only [CmdHandle.doPrintFiles, h]
  · intro hall hne hvalid hnz
    unfold Handle.printFiles
    rw [if_pos hne, if_pos hvalid]
    simp only [CmdHandle.doPrintFiles, hall]
    simp [hnz]

/-- Witness for C7: a concrete `Popen` failure with errno 13. -/
theorem claim_C7_witness :
    Handle.printFiles ["a.pdf"] none none []
      (fun fns ti op => CmdHandle.doPrintFiles "lp" "" 0 ""
        (fun _ => .error ⟨13, "Permission denied"⟩) "pr" fns ti op)
      = ⟨false, 13, "Permission denied", true⟩ :=
  (claim_C7 "lp" "" 0 "" (fun _ => .error ⟨13, "Permission denied"⟩) "pr"
      ["a.pdf"] "" [] ⟨13, "Permission denied"⟩ none none []).2
    (fun _ => rfl) (by decide) (by decide) (by decide)

/-- `pyIndex` finds the first occurrence: the element at the returned
index is the sought string and no earlier position holds it. -/
theorem pyIndex_first (x : String) :
    ∀ l i, pyIndex x l = some i →
      l.get? i = some x ∧ ∀ j, j < i → l.get? j ≠ some x := by
  intro l
  induction l with
  | nil => intro i h; cases h
  | cons y ys ih =>
    intro i h
    unfold pyIndex at h
    by_cases hy : y = x
    · rw [if_pos hy] at h
      obtain rfl : (0 : Nat) = i := Option.some.inj h
      exact ⟨by simp [hy], fun j hj => absurd hj (Nat.not_lt_zero j)⟩
    · rw [if_neg hy] at h
      cases hxy : pyIndex x ys with
      | none => rw [hxy] at h; cases h
      | some k =>
        rw [hxy] at h
        obtain rfl : k + 1 = i := Option.some.inj h
        obtain ⟨h1, h2⟩ := ih k hxy
        refine ⟨by simpa using h1, ?_⟩
        intro j hj
        match j with
        | 0 => simp [hy]
        | j' + 1 => simpa using h2 j' (by omega)

/-- C9 counterexample: the option list `["x", "page-set", "page-set",
"v"]` is non-empty, of even length, and contains `"page-set"` at the
even position 2, yet `clearPageSetSetting` writes nothing back,
because the first occurrence of `"page-set"` is at the odd position
1. -/
theorem claim_C9_counterexample :
    (["x", "page-set", "page-set", "v"].get? 2 = some "page-set") ∧
    2 % 2 = 0 ∧
    (["x", "page-set", "page-set", "v"] : List String) ≠ [] ∧
    (["x", "page-set", "page-set", "v"] : List String).length % 2 = 0 ∧
    clearPageSetSetting (.listVal ["x", "page-set", "page-set", "v"]) = none := by
  decide

/-- C9 (amended): `clearPageSetSetting` writes the option property back
exactly when the stored value is a non-empty even-length list whose
first occurrence of `"page-set"` sits at an even position; it then
removes exactly that key and its following value (all other entries
kept in place); in every other case — property missing or not a list,
odd length, `"page-set"` absent, or its first occurrence at an odd
position — nothing is written. -/
theorem claim_C9 (v : PropVal) :
    (∀ l i, v = .listVal l → l ≠ [] → l.length % 2 = 0 →
      pyIndex "page-set" l = some i → i % 2 = 0 →
      clearPageSetSetting v = some (l.take i ++ l.drop (i + 2))) ∧
    (∀ l i, v = .listVal l → pyIndex "page-set" l = some i → i % 2 = 1 →
      clearPageSetSetting v = none) ∧
    (∀ l, v = .listVal l → pyIndex "page-set" l = none → clearPageSetSetting v = none) ∧
    (∀ l, v = .listVal l → l.length % 2 = 1 → clearPageSetSetting v = none) ∧
    ((v = .absent ∨ v = .nonList) → clearPageSetSetting v = none) ∧
    (∀ l i, pyIndex "page-set" l = some i →
      l.get? i = some "page-set" ∧ ∀ j, j < i → l.get? j ≠ some "page-set") := by
  refine ⟨?_, ?_, ?_, ?_, ?_, pyIndex_first "page-set"⟩
  · rintro l i rfl hne hev hidx hieven
    simp [clearPageSetSetting, hne, hev, hidx, hieven]
  · rintro l i rfl hidx hiodd
    simp [clearPageSetSetting, hidx, hiodd]
  · rintro l rfl hidx
    simp [clearPageSetSetting, hidx]
  · rintro l rfl hodd
    simp [clearPageSetSetting, hodd]
  · rintro (rfl | rfl) <;> rfl

/-- Witness for C9 on a concrete list with `"page-set"` first at the
even position 0. -/
theorem claim_C9_witness :
    clearPageSetSetting (.listVal ["page-set", "odd", "copies", "2"])
      = some ["copies", "2"] :=
  (claim_C9 (.listVal ["page-set", "odd", "copies", "2"])).1
    ["page-set", "odd", "copies", "2"] 0 rfl (by decide) (by decide) (by decide) (by decide)

/-- C1: `PdfPage.mutex` returns the page's document, so two pages
sharing a document share one mutex, and in each of the three functions
that call into the native renderer — `PdfRenderer._render_image`
(page rendering), `PdfPage.text` (text extraction) and `PdfPage.links`
(link-model construction) — every native call happens while the
per-document lock of that page's document is held. -/
theorem claim_C1 (p q : PdfPage) (d : Nat) (c : Bool) :
    PdfPage.mutex p = p.document ∧
    (p.document = q.document → PdfPage.mutex p = PdfPage.mutex q) ∧
    nativeLocked [] (renderImageTrace d) = true ∧
    nativeTargets d (renderImageTrace d) = true ∧
    nativeLocked [] (textTrace p) = true ∧
    nativeTargets p.document (textTrace p) = true ∧
    nativeLocked [] (linksTrace p c) = true ∧
    nativeTargets p.document (linksTrace p c) = true := by
  refine ⟨rfl, fun h => h, ?_, ?_, ?_, ?_, ?_, ?_⟩ <;>
    cases c <;> simp [renderImageTrace, textTrace, linksTrace, nativeLocked, nativeTargets]

/-- Witness for C1: two concrete pages of document 3 share the
mutex. -/
theorem claim_C1_witness : PdfPage.mutex ⟨3, 0⟩ = PdfPage.mutex ⟨3, 1⟩ :=
  (claim_C1 ⟨3, 0⟩ ⟨3, 1⟩ 0 false).2.1 rfl

/-- C3 counterexample: at the requested size 100×50 (for a 50×25-point
page at actual size) the only tile `PdfRenderer.tiles` yields is the
whole page, and the render call for that tile renders the full
100×50 page image — the backend never renders a proper sub-region of
the page; smaller tiles would only be produced by cropping the
full-page image afterwards. -/
theorem claim_C3_counterexample :
    PdfRenderer.tiles 100 50 = [⟨0, 0, 100, 50⟩] ∧
    (PdfRenderer.draw 50 25 ⟨100, 50, 0⟩ ⟨0, 0, 100, 50⟩ 1 1).renderW = 100 ∧
    (PdfRenderer.draw 50 25 ⟨100, 50, 0⟩ ⟨0, 0, 100, 50⟩ 1 1).renderH = 50 := by
  refine ⟨rfl, ?_, ?_⟩ <;>
    norm_num [PdfRenderer.draw, pyInt, PdfRenderer.oversampleThreshold]

/-- C3 (amended): for the QtPdf backend, `PdfRenderer.tiles` yields a
single tile covering the entire page for every requested width and
height, and the bitmap size `_render_image` is asked for does not
depend on the tile being drawn — each render call renders the full
page image (a smaller tile is obtained afterwards by cropping), and
the oversampling multipliers are likewise tile-independent. -/
theorem claim_C3 (w h : Int) (pw ph : ℚ) (key : RenderKey) (t1 t2 : Tile)
    (m11 m22 : ℚ) :
    PdfRenderer.tiles w h = [⟨0, 0, w, h⟩] ∧
    (PdfRenderer.draw pw ph key t1 m11 m22).renderW
      = (PdfRenderer.draw pw ph key t2 m11 m22).renderW ∧
    (PdfRenderer.draw pw ph key t1 m11 m22).renderH
      = (PdfRenderer.draw pw ph key t2 m11 m22).renderH ∧
    (PdfRenderer.draw pw ph key t1 m11 m22).xMult
      = (PdfRenderer.draw pw ph key t2 m11 m22).xMult ∧
    (PdfRenderer.draw pw ph key t1 m11 m22).yMult
      = (PdfRenderer.draw pw ph key t2 m11 m22).yMult :=
  ⟨rfl, rfl, rfl, rfl, rfl⟩

/-- C4: in `PdfRenderer.draw` the render multiplier of an axis is 2
exactly when the painter's device transform has unit horizontal and
vertical scale and that axis's effective resolution (72 times the key
dimension over the matching point-size dimension of the page, sides
swapped for odd rotations) is strictly below `oversampleThreshold`
(96); otherwise it is 1, and away from actual size both multipliers
are 1; at actual size the drawn image is always scaled to the target
tile size. -/
theorem claim_C4 (pw ph : ℚ) (key : RenderKey) (tile : Tile) (m11 m22 : ℚ) :
    ((PdfRenderer.draw pw ph key tile m11 m22).xMult = 2 ↔
      ((m11 = 1 ∧ m22 = 1) ∧
        72 * (key.width : ℚ) / (if key.rotation % 2 = 1 then ph else pw)
          < PdfRenderer.oversampleThreshold)) ∧
    ((PdfRenderer.draw pw ph key tile m11 m22).xMult = 2 ∨
      (PdfRenderer.draw pw ph key tile m11 m22).xMult = 1) ∧
    ((PdfRenderer.draw pw ph key tile m11 m22).yMult = 2 ↔
      ((m11 = 1 ∧ m22 = 1) ∧
        72 * (key.height : ℚ) / (if key.rotation % 2 = 1 then pw else ph)
          < PdfRenderer.oversampleThreshold)) ∧
    ((PdfRenderer.draw pw ph key tile m11 m22).yMult = 2 ∨
      (PdfRenderer.draw pw ph key tile m11 m22).yMult = 1) ∧
    (¬(m11 = 1 ∧ m22 = 1) →
      (PdfRenderer.draw pw ph key tile m11 m22).xMult = 1 ∧
      (PdfRenderer.draw pw ph key tile m11 m22).yMult = 1) ∧
    ((m11 = 1 ∧ m22 = 1) →
      (PdfRenderer.draw pw ph key tile m11 m22).finalW
        = (if key.rotation % 2 = 1 then tile.h else tile.w) ∧
      (PdfRenderer.draw pw ph key tile m11 m22).finalH
        = (if key.rotation % 2 = 1 then tile.w else tile.h)) := by
  by_cases hA : m11 = 1 ∧ m22 = 1
  · obtain ⟨h1, h2⟩ := hA
    subst h1; subst h2
    refine ⟨?_, ?_, ?_, ?_, fun hn => absurd ⟨rfl, rfl⟩ hn, fun _ => ?_⟩
    · simp only [PdfRenderer.draw]
      split_ifs <;> simp_all
    · simp only [PdfRenderer.draw]
      split_ifs <;> norm_num
    · simp only [PdfRenderer.draw]
      split_ifs <;> simp_all
    · simp only [PdfRenderer.draw]
      split_ifs <;> norm_num
    · simp only [PdfRenderer.draw]
      constructor
      · split_ifs <;> simp_all
      · split_ifs <;> simp_all
  · have hA' : ¬(m11 = m22 ∧ m22 = 1) := by
      rintro ⟨a, b⟩; exact hA ⟨by rw [a, b], b⟩
    refine ⟨?_, ?_, ?_, ?_, fun _ => ⟨?_, ?_⟩, fun hc => absurd hc hA⟩ <;>
      simp only [PdfRenderer.draw, if_neg hA'] <;> simp [hA]

/-- Witness for C4: at actual size a 400×640 key for a 500×800-point
page is below the 96-DPI threshold, so the multiplier is 2, and the
drawn image has the target tile size. -/
theorem claim_C4_witness :
    (PdfRenderer.draw 500 800 ⟨400, 640, 0⟩ ⟨0, 0, 400, 640⟩ 1 1).xMult = 2 ∧
    (PdfRenderer.draw 500 800 ⟨400, 640, 0⟩ ⟨0, 0, 400, 640⟩ 1 1).finalW = 400 :=
  ⟨(claim_C4 500 800 ⟨400, 640, 0⟩ ⟨0, 0, 400, 640⟩ 1 1).1.mpr
      ⟨⟨rfl, rfl⟩, by norm_num [PdfRenderer.oversampleThreshold]⟩,
   (((claim_C4 500 800 ⟨400, 640, 0⟩ ⟨0, 0, 400, 640⟩ 1 1).2.2.2.2.2 ⟨rfl, rfl⟩).1).trans
      (by norm_num)⟩

/-- Adjusted start/stop values stay in `[0, n]` for a positive step. -/
theorem pyAdjustIndex_bounds_pos {n step v : Int} (hn : 0 ≤ n) (hs : 0 < step) :
    0 ≤ pyAdjustIndex n step v ∧ pyAdjustIndex n step v ≤ n := by
  simp only [pyAdjustIndex]
  split_ifs <;> omega

/-- Adjusted start/stop values stay in `[-1, n-1]` for a negative
step. -/
theorem pyAdjustIndex_bounds_neg {n step v : Int} (hn : 0 ≤ n) (hs : step < 0) :
    -1 ≤ pyAdjustIndex n step v ∧ pyAdjustIndex n step v ≤ n - 1 := by
  simp only [pyAdjustIndex]
  split_ifs <;> omega

/-- The start index (explicit or default) lies in `[0, n]` for a
positive step. -/
theorem pyStartIndex_bounds_pos {n step : Int} (hn : 0 ≤ n) (hs : 0 < step) :
    ∀ v, 0 ≤ pyStartIndex n step v ∧ pyStartIndex n step v ≤ n
  | none => by simp only [pyStartIndex]; rw [if_pos hs]; omega
  | some w => pyAdjustIndex_bounds_pos hn hs

/-- The stop index (explicit or default) lies in `[0, n]` for a
positive step. -/
theorem pyStopIndex_bounds_pos {n step : Int} (hn : 0 ≤ n) (hs : 0 < step) :
    ∀ v, 0 ≤ pyStopIndex n step v ∧ pyStopIndex n step v ≤ n
  | none => by simp only [pyStopIndex]; rw [if_pos hs]; omega
  | some w => pyAdjustIndex_bounds_pos hn hs

/-- The start index (explicit or default) lies in `[-1, n-1]` for a
negative step. -/
theorem pyStartIndex_bounds_neg {n step : Int} (hn : 0 ≤ n) (hs : step < 0) :
    ∀ v, -1 ≤ pyStartIndex n step v ∧ pyStartIndex n step v ≤ n - 1
  | none => by simp only [pyStartIndex]; rw [if_neg (by omega)]; omega
  | some w => pyAdjustIndex_bounds_neg hn hs

/-- The stop index (explicit or default) lies in `[-1, n-1]` for a
negative step. -/
theorem pyStopIndex_bounds_neg {n step : Int} (hn : 0 ≤ n) (hs : step < 0) :
    ∀ v, -1 ≤ pyStopIndex n step v ∧ pyStopIndex n step v ≤ n - 1
  | none => by simp only [pyStopIndex]; rw [if_neg (by omega)]; omega
  | some w => pyAdjustIndex_bounds_neg hn hs

/-- With a positive step, a start in `[0, n]` and a stop in `[0, n]`,
every selected index `start + step * k` lies in `[0, n)`. -/
theorem pySlice_elt_pos {n start stop step : Int} {k : Nat} (hs : 0 < step)
    (h0 : 0 ≤ start) (h1 : stop ≤ n)
    (hk : (k : Int) < pySliceLength start stop step) :
    0 ≤ start + step * k ∧ start + step * k < n := by
  unfold pySliceLength at hk
  rw [if_pos hs] at hk
  by_cases hss : start < stop
  · rw [if_pos hss] at hk
    have hq : (k : Int) ≤ (stop - start - 1) / step := by omega
    have hmul : (k : Int) * step ≤ stop - start - 1 :=
      (Int.le_ediv_iff_mul_le hs).mp hq
    have hnn : 0 ≤ (k : Int) * step := mul_nonneg (Int.natCast_nonneg k) hs.le
    rw [mul_comm step ((k : Int))]
    constructor <;> linarith
  · rw [if_neg hss] at hk
    omega

/-- With a negative step, a start in `[-1, n-1]` and a stop in
`[-1, n-1]`, every selected index `start + step * k` lies in
`[0, n)`. -/
theorem pySlice_elt_neg {n start stop step : Int} {k : Nat} (hs : step < 0)
    (h0 : start ≤ n - 1) (h1 : -1 ≤ stop)
    (hk : (k : Int) < pySliceLength start stop step) :
    0 ≤ start + step * k ∧ start + step * k < n := by
  unfold pySliceLength at hk
  rw [if_neg (by omega)] at hk
  by_cases hss : stop < start
  · rw [if_pos hss] at hk
    have hq : (k : Int) ≤ (start - stop - 1) / (-step) := by omega
    have hmul : (k : Int) * (-step) ≤ start - stop - 1 :=
      (Int.le_ediv_iff_mul_le (by omega)).mp hq
    have hnn : 0 ≤ (k : Int) * (-step) :=
      mul_nonneg (Int.natCast_nonneg k) (by omega)
    have hrw : step * (k : Int) = -((k : Int) * (-step)) := by ring
    rw [hrw]
    constructor <;> linarith
  · rw [if_neg hss] at hk
    omega

/-- Every index produced by slicing `range(n)` lies in `[0, n)`. -/
theorem pySlice_apply_bounds (s : PySlice) (n : Nat) (l : List Int)
    (hl : s.apply n = some l) : ∀ p ∈ l, 0 ≤ p ∧ p < n := by
  unfold PySlice.apply at hl
  by_cases h0 : s.step.getD 1 = 0
  · rw [if_pos h0] at hl; cases hl
  · rw [if_neg h0] at hl
    obtain rfl := (Option.some.inj hl).symm
    intro p hp
    obtain ⟨k, hk, rfl⟩ := List.mem_map.mp hp
    have hkr := List.mem_range.mp hk
    have hki : (k : Int) < pySliceLength (pyStartIndex n (s.step.getD 1) s.start)
        (pyStopIndex n (s.step.getD 1) s.stop) (s.step.getD 1) := by omega
    rcases lt_or_gt_of_ne h0 with hneg | hpos
    · exact pySlice_elt_neg hneg
        (pyStartIndex_bounds_neg (Int.natCast_nonneg n) hneg s.start).2
        (pyStopIndex_bounds_neg (Int.natCast_nonneg n) hneg s.stop).1 hki
    · exact pySlice_elt_pos hpos
        (pyStartIndex_bounds_pos (Int.natCast_nonneg n) hpos s.start).1
        (pyStopIndex_bounds_pos (Int.natCast_nonneg n) hpos s.stop).2 hki

/-- C6: `PdfPage.loadDocument` without a slice yields exactly the pages
0, 1, ..., pageCount-1 of the document, once each in increasing order;
and with or without a slice, every yielded page belongs to the given
document and has a page number within the document's page count. -/
theorem claim_C6 (doc pageCount : Nat) :
    PdfPage.loadDocument doc pageCount none
      = some ((List.range pageCount).map (fun k : Nat => ⟨doc, (k : Int)⟩)) ∧
    (∀ s pages, PdfPage.loadDocument doc pageCount s = some pages →
      ∀ p ∈ pages, p.document = doc ∧ 0 ≤ p.pageNumber ∧
        p.pageNumber < pageCount) := by
  refine ⟨rfl, ?_⟩
  intro s pages hload p hp
  cases s with
  | none =>
    obtain rfl := (Option.some.inj hload).symm
    obtain ⟨k, hk, rfl⟩ := List.mem_map.mp hp
    have hkr := List.mem_range.mp hk
    exact ⟨rfl, Int.natCast_nonneg k, by simpa using hkr⟩
  | some sl =>
    simp only [PdfPage.loadDocument] at hload
    obtain ⟨l, hl, rfl⟩ := Option.map_eq_some'.mp hload
    obtain ⟨m, hm, rfl⟩ := List.mem_map.mp hp
    have hb := pySlice_apply_bounds sl pageCount l hl m hm
    exact ⟨rfl, hb.1, hb.2⟩

/-- Witness for C6: slicing a 3-page document with `slice(1, 2)` yields
the single page 1, which is within the page count. -/
theorem claim_C6_witness :
    (⟨7, 1⟩ : PdfPage).document = 7 ∧ 0 ≤ (⟨7, 1⟩ : PdfPage).pageNumber ∧
      (⟨7, 1⟩ : PdfPage).pageNumber < 3 :=
  (claim_C6 7 3).2 (some ⟨some 1, some 2, none⟩) [⟨7, 1⟩] (by decide) ⟨7, 1⟩
    (List.mem_singleton.mpr rfl)

end QPageView
